import Mathlib

/-
Verification of the financial projection and solver engine of the dplanner
repository (src/src/components/InvestmentPlanner.jsx).

Modelling conventions.  JS numbers are modelled as exact rationals (ℚ):
the engine's formulas are plain field arithmetic, and the spec's properties
are stated about real arithmetic ("exactly in real arithmetic, within
rounding tolerance in floats").  `Math.round` is round-half-up on exact
rationals.  `Math.pow` with an exponent that is an integer by construction
(a rounded period count or a loop counter) is exact integer power; the few
call sites whose exponent can be a fractional number of years (irrational
results in general) take an abstract power function `powq : ℚ → ℚ → ℚ` as a
parameter, so every theorem quantifying over `powq` holds for whatever
real-valued power JS computes.  `jsPowInt` is a concrete instance of such a
`powq` that agrees with `Math.pow` on integer exponents (in exact
arithmetic); it is used to evaluate concrete inputs.  The JS `NaN` returned
by `xirr` on an empty list is modelled as `none` of an `Option ℚ` result.
Rational division by zero is the junk value 0 (IEEE would give ±Infinity /
NaN); no theorem below rests on a division-by-zero result except where a
counterexample's commentary says so explicitly.
-/

namespace DP

/-- Mirror of `const clamp = (v, min, max) => Math.min(max, Math.max(min, v))`. -/
def clamp (v mn mx : ℚ) : ℚ := min mx (max mn v)

/-- Mirror of `const annualPctToMonthlyRate = (p) => num(p) / 100 / 12`
(`num` is the identity on finite numbers). -/
def annualPctToMonthlyRate (p : ℚ) : ℚ := p / 100 / 12

/-- Mirror of `const annualPctToRate = (p) => num(p) / 100`. -/
def annualPctToRate (p : ℚ) : ℚ := p / 100

/-- JS `Math.round` on exact rationals: round half toward positive infinity. -/
def jsRound (q : ℚ) : ℤ := ⌊q + 1/2⌋

/-- Concrete stand-in for JS `Math.pow`, exact on integer exponents
(where `Math.pow (b, k) = b^k` in real arithmetic); a fractional exponent
(whose real power is irrational in general) yields a junk value that no
theorem below depends on. -/
def jsPowInt (b e : ℚ) : ℚ := if e.den = 1 then b ^ e.num else 0

/-- One row of a growth schedule: `{ year, invested, value }`. -/
structure SRow where
  year : ℚ
  invested : ℚ
  value : ℚ
deriving DecidableEq

/-- One cash-flow entry `{ date, amount }`; the date is a millisecond
timestamp (JS `Date` arithmetic subtracts millisecond values). -/
structure Cashflow where
  date : ℚ
  amount : ℚ
deriving DecidableEq

/-- Result record of `retirementCorpus_FiniteYears`. -/
structure RetFin where
  annualExpenseAtRetire : ℚ
  corpus : ℚ
  realRate : ℚ
deriving DecidableEq

/-- Mirror of `fvLumpSum`: `principal * Math.pow(1 + r, n)` with
`r = annualPctToRate(annualPct) / compPerYear` and `n = years * compPerYear`
(possibly fractional, hence the abstract `powq`). -/
def fvLumpSum (powq : ℚ → ℚ → ℚ) (principal annualPct years compPerYear : ℚ) : ℚ :=
  principal * powq (1 + annualPctToRate annualPct / compPerYear) (years * compPerYear)

/-- Mirror of `fvSIP`: here `n = Math.round(years * 12)` is an integer, so
`Math.pow(1 + r, n)` is an exact integer power. -/
def fvSIP (monthlyInvestment annualPct years : ℚ) : ℚ :=
  let r := annualPctToMonthlyRate annualPct
  let n := jsRound (years * 12)
  if r = 0 then monthlyInvestment * (n : ℚ)
  else monthlyInvestment * (((1 + r) ^ n - 1) / r) * (1 + r)

/-- Body of the `sipSchedule` loop: processes months `m, m+1, …, m+rem-1`
starting from running balance `b`; returns the rows pushed (one per month
divisible by 12, holding `{year: m/12, invested: mi*m, value: balance}`)
together with the final balance. -/
def sipAux (mi r : ℚ) : ℕ → ℕ → ℚ → List SRow × ℚ
  | _, 0, b => ([], b)
  | m, rem + 1, b =>
    let b2 := (b + mi) * (1 + r)
    let rest := sipAux mi r (m + 1) rem b2
    ((if m % 12 = 0 then [⟨(m : ℚ) / 12, mi * (m : ℚ), b2⟩] else []) ++ rest.1, rest.2)

/-- Mirror of `sipSchedule`: run the monthly loop for `n = Math.round(years*12)`
months, then push a final row at the exact requested duration iff `n % 12 ≠ 0`. -/
def sipSchedule (monthlyInvestment annualPct years : ℚ) : List SRow :=
  let r := annualPctToMonthlyRate annualPct
  let n := jsRound (years * 12)
  let res := sipAux monthlyInvestment r 1 n.toNat 0
  if n % 12 ≠ 0 then res.1 ++ [⟨years, monthlyInvestment * (n : ℚ), res.2⟩] else res.1

/-- Mirror of `lumpsumSchedule`: the loop `for (y = 1; y <= years; y++)` runs
`y = 1 … ⌊years⌋` with exact integer powers; the trailing push (when no loop
row's year equals `years`) uses `Math.pow(1 + r, years)` with possibly
fractional `years`, abstracted by `powq`. -/
def lumpsumSchedule (powq : ℚ → ℚ → ℚ) (principal annualPct years : ℚ) : List SRow :=
  let r := annualPctToRate annualPct
  let rows := (List.range ⌊years⌋.toNat).map
    (fun i => ⟨((i + 1 : ℕ) : ℚ), principal, principal * (1 + r) ^ (i + 1)⟩)
  if ∃ x ∈ rows, x.year = years then rows
  else rows ++ [⟨years, principal, principal * powq (1 + r) years⟩]

/-- Mirror of `retirementCorpus_FiniteYears`; both `Math.pow` exponents
(`yearsToRetire` and `-yearsInRetirement`) may be fractional, hence `powq`. -/
def retirementCorpus_FiniteYears (powq : ℚ → ℚ → ℚ)
    (monthlyExpenseToday inflationPct yearsToRetire yearsInRetirement postRetReturnPct : ℚ) :
    RetFin :=
  let g := annualPctToRate inflationPct
  let r := annualPctToRate postRetReturnPct
  let annualExpenseAtRetire := monthlyExpenseToday * 12 * powq (1 + g) yearsToRetire
  let realRate := (1 + r) / (1 + g) - 1
  let corpus :=
    if |realRate| < 1 / 1000000000 then annualExpenseAtRetire * yearsInRetirement
    else annualExpenseAtRetire * (1 - powq (1 + realRate) (-yearsInRetirement)) / realRate
  ⟨annualExpenseAtRetire, corpus, realRate⟩

/-- Mirror of `suggestAllocation`; the result is the pair `(equity, debt)`.
Note the source computes `base = rule === "100-age" ? 100 : 110`. -/
def suggestAllocation (age : ℚ) (rule : String) : ℚ × ℚ :=
  let base : ℚ := if rule = "100-age" then 100 else 110
  let equity := clamp (base - age) 0 100
  let debt := clamp (100 - equity) 0 100
  (equity, debt)

/-- Allocation as the spec sentence literally reads:
`base = 110 if rule == "110-age" else 100`, `equity = clamp(base - age, 0, 100)`,
`debt = 100 - equity`.  Kept separate from `suggestAllocation` (the source
mirror) so the two can be compared. -/
def specAllocation (age : ℚ) (rule : String) : ℚ × ℚ :=
  let base : ℚ := if rule = "110-age" then 110 else 100
  let equity := clamp (base - age) 0 100
  (equity, 100 - equity)

/-- Mirror of `requiredSIP` (the source's unused `existingMonthly` parameter is
kept for fidelity); `Math.pow(1 + r, n)` has the integer exponent
`n = Math.round(years * 12)`, but the inner `fvLumpSum` call may raise to the
fractional power `years * 12`, hence `powq`. -/
def requiredSIP (powq : ℚ → ℚ → ℚ)
    (targetAmount years expectedAnnualReturnPct existingCorpus existingMonthly lumpsum : ℚ) :
    ℚ :=
  let r := annualPctToMonthlyRate expectedAnnualReturnPct
  let n := jsRound (years * 12)
  let fvCorpus := fvLumpSum powq (existingCorpus + lumpsum) expectedAnnualReturnPct years 12
  if |r| < 1 / 1000000000000 then
    max 0 (targetAmount - fvCorpus) / (n : ℚ)
  else
    let factor := ((1 + r) ^ n - 1) / r * (1 + r)
    max 0 (targetAmount - fvCorpus) / factor

/-- Year offsets of each cash flow relative to the first entry:
`dayDiff(d, t0) / 365` with `dayDiff(d1, d2) = (d1 - d2) / (1000*60*60*24)`. -/
def yearFractions (cashflows : List Cashflow) : List ℚ :=
  match cashflows with
  | [] => []
  | c0 :: _ => cashflows.map (fun c => (c.date - c0.date) / 86400000 / 365)

/-- The `npv` closure of `xirr`: `Σ amount_i / Math.pow(1 + r, years_i)`
(fractional exponents, hence `powq`). -/
def npvOf (powq : ℚ → ℚ → ℚ) (cashflows : List Cashflow) (r : ℚ) : ℚ :=
  ((cashflows.map Cashflow.amount).zip (yearFractions cashflows)).foldl
    (fun s ay => s + ay.1 / powq (1 + r) ay.2) 0

/-- The `npvDerivative` closure of `xirr`:
`Σ -(years_i * amount_i) / Math.pow(1 + r, years_i + 1)`. -/
def npvDerivOf (powq : ℚ → ℚ → ℚ) (cashflows : List Cashflow) (r : ℚ) : ℚ :=
  ((cashflows.map Cashflow.amount).zip (yearFractions cashflows)).foldl
    (fun s ay => s - ay.2 * ay.1 / powq (1 + r) (ay.2 + 1)) 0

/-- The Newton-Raphson loop of `xirr`, fuel-indexed (the source runs it with
fuel 100): break on `|f'| < 1e-10`, update `x -= f/f'`, return early on
`|dx| < 1e-7`, and return the current iterate when the fuel runs out. -/
def newton (f fp : ℚ → ℚ) : ℕ → ℚ → ℚ
  | 0, x => x
  | fuel + 1, x =>
    let d := fp x
    if |d| < 1 / 10000000000 then x
    else
      let dx := f x / d
      let x2 := x - dx
      if |dx| < 1 / 10000000 then x2 else newton f fp fuel x2

/-- Instrumented Newton-Raphson loop: same iterates as `newton`, but also
reports whether the step-size tolerance was met (`true` exactly on the
`|dx| < 1e-7` early return) and how many loop iterations executed. -/
def newtonT (f fp : ℚ → ℚ) : ℕ → ℚ → ℚ × Bool × ℕ
  | 0, x => (x, false, 0)
  | fuel + 1, x =>
    let d := fp x
    if |d| < 1 / 10000000000 then (x, false, 1)
    else
      let dx := f x / d
      let x2 := x - dx
      if |dx| < 1 / 10000000 then (x2, true, 1)
      else
        let t := newtonT f fp fuel x2
        (t.1, t.2.1, t.2.2 + 1)

/-- Mirror of `xirr`: `none` models the JS `NaN` returned on an empty list;
otherwise Newton-Raphson from `guess` (source default 0.1) with fuel 100. -/
def xirr (powq : ℚ → ℚ → ℚ) (cashflows : List Cashflow) (guess : ℚ) : Option ℚ :=
  match cashflows with
  | [] => none
  | _ :: _ => some (newton (npvOf powq cashflows) (npvDerivOf powq cashflows) 100 guess)

/-- Instrumented `xirr`: the returned value together with the tolerance-met
flag and the executed iteration count of its Newton-Raphson loop. -/
def xirrT (powq : ℚ → ℚ → ℚ) (cashflows : List Cashflow) (guess : ℚ) : Option ℚ × Bool × ℕ :=
  match cashflows with
  | [] => (none, false, 0)
  | _ :: _ =>
    let t := newtonT (npvOf powq cashflows) (npvDerivOf powq cashflows) 100 guess
    (some t.1, t.2.1, t.2.2)

/-- The months among `m, …, m+rem-1` that are multiples of 12 — the months at
which the `sipSchedule` loop pushes a row. -/
def monthList (m rem : ℕ) : List ℕ :=
  ((List.range rem).map (fun i => m + i)).filter (fun k => k % 12 == 0)

theorem newton_eq_newtonT_fst (f fp : ℚ → ℚ) :
    ∀ (fuel : ℕ) (x : ℚ), newton f fp fuel x = (newtonT f fp fuel x).1 := by
  intro fuel
  induction fuel with
  | zero => intro x; rfl
  | succ k ih =>
    intro x
    rw [newton, newtonT]
    dsimp only
    split_ifs with h1 h2
    · rfl
    · rfl
    · exact ih _

theorem newtonT_count_le (f fp : ℚ → ℚ) :
    ∀ (fuel : ℕ) (x : ℚ), (newtonT f fp fuel x).2.2 ≤ fuel := by
  intro fuel
  induction fuel with
  | zero => intro x; exact le_refl 0
  | succ k ih =>
    intro x
    rw [newtonT]
    dsimp only
    split_ifs with h1 h2
    · simp
    · simp
    · simpa using ih ((fun y => y - f y / fp y) x)

theorem newton_deriv_break (f fp : ℚ → ℚ) (fuel : ℕ) (x : ℚ) (h : fp x = 0) :
    newton f fp (fuel + 1) x = x := by
  rw [newton]
  dsimp only
  rw [if_pos (by rw [h]; norm_num)]

theorem newtonT_deriv_break (f fp : ℚ → ℚ) (fuel : ℕ) (x : ℚ) (h : fp x = 0) :
    newtonT f fp (fuel + 1) x = (x, false, 1) := by
  rw [newtonT]
  dsimp only
  rw [if_pos (by rw [h]; norm_num)]

theorem npvDerivOf_single (powq : ℚ → ℚ → ℚ) (c : Cashflow) (r : ℚ) :
    npvDerivOf powq [c] r = 0 := by
  simp [npvDerivOf, yearFractions]

/-- C6: `xirr` applied to an empty cash-flow list fails immediately, returning
the not-a-number value (modelled `none`, distinct from every rate, in
particular from `some 0`), and its Newton-Raphson loop executes zero
iterations — for every power function and every initial guess. -/
theorem xirr_empty_invalid (powq : ℚ → ℚ → ℚ) (guess : ℚ) :
    xirr powq [] guess = none ∧ xirrT powq [] guess = (none, false, 0) :=
  ⟨rfl, rfl⟩

/-- C7: for every cash-flow list, every power function and every initial
guess, the Newton-Raphson loop inside `xirr` executes at most 100
iterations (the loop is fuel-bounded, so `xirr` is total by construction). -/
theorem xirr_iterations_le_100 (powq : ℚ → ℚ → ℚ) (cashflows : List Cashflow) (guess : ℚ) :
    (xirrT powq cashflows guess).2.2 ≤ 100 := by
  cases cashflows with
  | nil => exact Nat.zero_le 100
  | cons c cs =>
    simpa [xirrT] using newtonT_count_le (npvOf powq (c :: cs)) (npvDerivOf powq (c :: cs)) 100 guess

/-- C9: on a cash-flow list with exactly one entry — any date, any amount —
the NPV derivative is exactly 0 at every rate, so the first Newton-Raphson
iteration hits the near-zero-derivative break before any update and `xirr`
returns the initial guess unchanged, with the tolerance-met flag false and
exactly one iteration executed. -/
theorem xirr_single_entry (powq : ℚ → ℚ → ℚ) (c : Cashflow) (guess : ℚ) :
    xirr powq [c] guess = some guess ∧
    xirrT powq [c] guess = (some guess, false, 1) ∧
    npvDerivOf powq [c] guess = 0 := by
  have hd : npvDerivOf powq [c] guess = 0 := npvDerivOf_single powq c guess
  have h1 : newton (npvOf powq [c]) (npvDerivOf powq [c]) 100 guess = guess :=
    newton_deriv_break _ _ 99 guess hd
  have h2 : newtonT (npvOf powq [c]) (npvDerivOf powq [c]) 100 guess = (guess, false, 1) :=
    newtonT_deriv_break _ _ 99 guess hd
  refine ⟨?_, ?_, hd⟩
  · show some (newton (npvOf powq [c]) (npvDerivOf powq [c]) 100 guess) = some guess
    rw [h1]
  · show (some (newtonT (npvOf powq [c]) (npvDerivOf powq [c]) 100 guess).1,
      (newtonT (npvOf powq [c]) (npvDerivOf powq [c]) 100 guess).2.1,
      (newtonT (npvOf powq [c]) (npvDerivOf powq [c]) 100 guess).2.2) = (some guess, false, 1)
    rw [h2]

/-- C1 (amended): `xirr` always returns exactly the value component of the
instrumented run — the last computed iterate as a bare number — whether or
not the step-size tolerance was met; no non-convergence flag of any kind is
part of the result. -/
theorem xirr_returns_bare_last_iterate (powq : ℚ → ℚ → ℚ) (cashflows : List Cashflow)
    (guess : ℚ) :
    xirr powq cashflows guess = (xirrT powq cashflows guess).1 := by
  cases cashflows with
  | nil => rfl
  | cons c cs =>
    show some (newton _ _ 100 guess) = some (newtonT _ _ 100 guess).1
    rw [newton_eq_newtonT_fst]

/-- C1 (counterexample): a run that breaks on a near-zero derivative without
ever meeting the step tolerance (single entry; flag `false`) and a run that
converges (step tolerance met on the first iteration; flag `true`) return
**equal** results, so the caller cannot distinguish a non-converged result
from a converged one — the claimed flagging does not exist in the code. -/
theorem xirr_convergence_indistinguishable_cex :
    xirrT jsPowInt [⟨0, -100⟩] (1/10) = (some (1/10), false, 1) ∧
    xirrT jsPowInt [⟨0, -100⟩, ⟨31536000000, 110⟩] (1/10) = (some (1/10), true, 1) ∧
    xirr jsPowInt [⟨0, -100⟩] (1/10) = xirr jsPowInt [⟨0, -100⟩, ⟨31536000000, 110⟩] (1/10) := by
  have h1 : xirr jsPowInt [⟨0, -100⟩] (1/10) = some (1/10) := by with_unfolding_all rfl
  have h2 : xirr jsPowInt [⟨0, -100⟩, ⟨31536000000, 110⟩] (1/10) = some (1/10) := by
    with_unfolding_all rfl
  exact ⟨by with_unfolding_all rfl, by with_unfolding_all rfl, by rw [h1, h2]⟩

theorem clamp_nonneg (v : ℚ) : 0 ≤ clamp v 0 100 :=
  le_min (by norm_num) (le_max_left 0 v)

theorem clamp_le_100 (v : ℚ) : clamp v 0 100 ≤ 100 :=
  min_le_left _ _

theorem clamp_of_mem (v : ℚ) (h1 : 0 ≤ v) (h2 : v ≤ 100) : clamp v 0 100 = v := by
  unfold clamp
  rw [max_eq_right h1, min_eq_right h2]

/-- C3 (amended): `suggestAllocation` computes `base = 100` exactly when the
rule string is `"100-age"` and `base = 110` for every other string (the
source tests `rule === "100-age"`, not `rule === "110-age"`), then
`equity = clamp(base - age, 0, 100)`, `debt = 100 - equity`; equity stays in
`[0, 100]` and the two parts always sum to 100. -/
theorem suggestAllocation_formula (age : ℚ) (rule : String) :
    (suggestAllocation age rule).1
      = clamp ((if rule = "100-age" then (100:ℚ) else 110) - age) 0 100 ∧
    (suggestAllocation age rule).2 = 100 - (suggestAllocation age rule).1 ∧
    0 ≤ (suggestAllocation age rule).1 ∧ (suggestAllocation age rule).1 ≤ 100 ∧
    (suggestAllocation age rule).1 + (suggestAllocation age rule).2 = 100 := by
  have h2 : (suggestAllocation age rule).2 = 100 - (suggestAllocation age rule).1 := by
    show clamp (100 - clamp ((if rule = "100-age" then (100:ℚ) else 110) - age) 0 100) 0 100
      = 100 - clamp ((if rule = "100-age" then (100:ℚ) else 110) - age) 0 100
    exact clamp_of_mem _
      (by linarith [clamp_le_100 ((if rule = "100-age" then (100:ℚ) else 110) - age)])
      (by linarith [clamp_nonneg ((if rule = "100-age" then (100:ℚ) else 110) - age)])
  exact ⟨rfl, h2, clamp_nonneg _, clamp_le_100 _, by rw [h2]; ring⟩

/-- C3 (counterexample): for the rule string `"x"` (neither `"110-age"` nor
`"100-age"`) at age 105, the code uses base 110 and returns equity 5, while
the claimed formula (`base = 110 iff rule == "110-age"`, else 100) yields
equity 0 — the two disagree. -/
theorem suggestAllocation_base_cex :
    suggestAllocation 105 "x" = (5, 95) ∧ specAllocation 105 "x" = (0, 100) ∧
    suggestAllocation 105 "x" ≠ specAllocation 105 "x" := by
  have h1 : suggestAllocation 105 "x" = (5, 95) := by with_unfolding_all rfl
  have h2 : specAllocation 105 "x" = (0, 100) := by with_unfolding_all rfl
  refine ⟨h1, h2, ?_⟩
  rw [h1, h2]
  intro h
  rw [Prod.mk.injEq] at h
  norm_num at h

/-- C5 (amended): whenever `postRetReturnPct = inflationPct` and that common
percentage is not -100, the computed real rate is exactly 0, the guarded
linear branch is taken, and the corpus equals
`annualExpenseAtRetire * yearsInRetirement` — for every power function and
all other inputs. -/
theorem retirement_finite_zero_real_rate (powq : ℚ → ℚ → ℚ)
    (monthlyExpenseToday yearsToRetire yearsInRetirement p : ℚ) (hp : p ≠ -100) :
    (retirementCorpus_FiniteYears powq monthlyExpenseToday p yearsToRetire
      yearsInRetirement p).realRate = 0 ∧
    (retirementCorpus_FiniteYears powq monthlyExpenseToday p yearsToRetire
      yearsInRetirement p).corpus
      = (retirementCorpus_FiniteYears powq monthlyExpenseToday p yearsToRetire
          yearsInRetirement p).annualExpenseAtRetire * yearsInRetirement := by
  have hg : (1:ℚ) + annualPctToRate p ≠ 0 := by
    unfold annualPctToRate
    intro h
    exact hp (by linarith)
  have hrr : (1 + annualPctToRate p) / (1 + annualPctToRate p) - 1 = 0 := by
    rw [div_self hg]
    ring
  constructor
  · show (1 + annualPctToRate p) / (1 + annualPctToRate p) - 1 = 0
    exact hrr
  · show (if |(1 + annualPctToRate p) / (1 + annualPctToRate p) - 1| < 1 / 1000000000 then
        monthlyExpenseToday * 12 * powq (1 + annualPctToRate p) yearsToRetire * yearsInRetirement
      else monthlyExpenseToday * 12 * powq (1 + annualPctToRate p) yearsToRetire *
        (1 - powq (1 + ((1 + annualPctToRate p) / (1 + annualPctToRate p) - 1))
          (-yearsInRetirement)) / ((1 + annualPctToRate p) / (1 + annualPctToRate p) - 1))
      = monthlyExpenseToday * 12 * powq (1 + annualPctToRate p) yearsToRetire * yearsInRetirement
    rw [if_pos (by rw [hrr]; norm_num)]

/-- Witness for `retirement_finite_zero_real_rate` at a concrete input. -/
theorem retirement_finite_zero_real_rate_w :
    (5:ℚ) ≠ -100 ∧
    ((retirementCorpus_FiniteYears jsPowInt 1 5 1 2 5).realRate = 0 ∧
     (retirementCorpus_FiniteYears jsPowInt 1 5 1 2 5).corpus
       = (retirementCorpus_FiniteYears jsPowInt 1 5 1 2 5).annualExpenseAtRetire * 2) :=
  ⟨by norm_num, retirement_finite_zero_real_rate jsPowInt 1 1 2 5 (by norm_num)⟩

/-- C5 (counterexample): at `inflationPct = postRetReturnPct = -100` the real
rate is not numerically zero (the model yields -1; IEEE arithmetic yields
NaN from 0/0), the guarded linear branch is **not** taken, and the corpus
does not equal `annualExpenseAtRetire * yearsInRetirement` (the model yields
-12 against 24; IEEE yields a non-finite value). -/
theorem retirement_finite_real_rate_cex :
    (retirementCorpus_FiniteYears jsPowInt 1 (-100) 0 2 (-100)).realRate = -1 ∧
    ¬ (|(retirementCorpus_FiniteYears jsPowInt 1 (-100) 0 2 (-100)).realRate|
        < 1 / 1000000000) ∧
    (retirementCorpus_FiniteYears jsPowInt 1 (-100) 0 2 (-100)).corpus
      ≠ (retirementCorpus_FiniteYears jsPowInt 1 (-100) 0 2
          (-100)).annualExpenseAtRetire * 2 := by
  have h1 : (retirementCorpus_FiniteYears jsPowInt 1 (-100) 0 2 (-100)).realRate = -1 := by
    with_unfolding_all rfl
  have h2 : (retirementCorpus_FiniteYears jsPowInt 1 (-100) 0 2 (-100)).corpus = -12 := by
    with_unfolding_all rfl
  have h3 : (retirementCorpus_FiniteYears jsPowInt 1 (-100) 0 2
      (-100)).annualExpenseAtRetire = 12 := by
    with_unfolding_all rfl
  refine ⟨h1, ?_, ?_⟩
  · rw [h1]
    norm_num
  · rw [h2, h3]
    norm_num

theorem annuity_factor_pos (r : ℚ) (n : ℕ) (h1 : -1 < r) (h0 : r ≠ 0) (hn : n ≠ 0) :
    0 < ((1 + r) ^ n - 1) / r * (1 + r) := by
  have hb : (0:ℚ) < 1 + r := by linarith
  rcases lt_or_gt_of_ne h0 with hneg | hpos
  · have hlt : (1 + r) ^ n < 1 := pow_lt_one₀ (le_of_lt hb) (by linarith) hn
    exact mul_pos (div_pos_of_neg_of_neg (by linarith) hneg) hb
  · have hgt : 1 < (1 + r) ^ n := one_lt_pow₀ (by linarith) hn
    exact mul_pos (div_pos (by linarith) hpos) hb

/-- C4 (amended): for every goal input whose rounded period count is at least
1, whose target is at least the future value of the existing corpus plus
lumpsum, and whose monthly rate is either exactly zero or outside the
solver's `1e-12` zero-guard band and above -100% per month, feeding the
contribution returned by `requiredSIP` back into `fvSIP` and adding the
future value of the existing corpus reproduces the target exactly. -/
theorem requiredSIP_roundtrip (powq : ℚ → ℚ → ℚ)
    (targetAmount years apct existingCorpus existingMonthly lumpsum : ℚ)
    (hn : 1 ≤ jsRound (years * 12))
    (hfv : fvLumpSum powq (existingCorpus + lumpsum) apct years 12 ≤ targetAmount)
    (hr : annualPctToMonthlyRate apct = 0 ∨
      (1 / 1000000000000 ≤ |annualPctToMonthlyRate apct| ∧ -1 < annualPctToMonthlyRate apct)) :
    fvSIP (requiredSIP powq targetAmount years apct existingCorpus existingMonthly lumpsum)
        apct years
      + fvLumpSum powq (existingCorpus + lumpsum) apct years 12 = targetAmount := by
  set r := annualPctToMonthlyRate apct with hrdef
  set n := jsRound (years * 12) with hndef
  set fv := fvLumpSum powq (existingCorpus + lumpsum) apct years 12 with hfvdef
  have hreq : requiredSIP powq targetAmount years apct existingCorpus existingMonthly lumpsum
      = if |r| < 1 / 1000000000000 then max 0 (targetAmount - fv) / (n : ℚ)
        else max 0 (targetAmount - fv) / (((1 + r) ^ n - 1) / r * (1 + r)) := rfl
  have hfvs : ∀ mi : ℚ, fvSIP mi apct years
      = if r = 0 then mi * (n : ℚ) else mi * (((1 + r) ^ n - 1) / r) * (1 + r) :=
    fun mi => rfl
  have hmax : max 0 (targetAmount - fv) = targetAmount - fv := max_eq_right (by linarith)
  have hnQ : (1:ℚ) ≤ (n : ℚ) := by exact_mod_cast hn
  rcases hr with h0 | ⟨hmag, hgt⟩
  · have hguard : |r| < 1 / 1000000000000 := by rw [h0]; norm_num
    have hne : (n:ℚ) ≠ 0 := ne_of_gt (by linarith)
    rw [hreq, if_pos hguard, hmax, hfvs, if_pos h0, div_mul_cancel₀ _ hne]
    ring
  · have hrne : r ≠ 0 := by
      intro h
      rw [h] at hmag
      norm_num at hmag
    have hguard : ¬ |r| < 1 / 1000000000000 := not_lt.2 hmag
    have hn0 : (0:ℤ) ≤ n := by linarith
    have hzn : (1 + r) ^ n = (1 + r) ^ n.toNat := by
      conv_lhs => rw [← Int.toNat_of_nonneg hn0]
      exact zpow_natCast _ _
    have hfac : 0 < ((1 + r) ^ n - 1) / r * (1 + r) := by
      rw [hzn]
      exact annuity_factor_pos r n.toNat hgt hrne (by omega)
    have hfne : ((1 + r) ^ n - 1) / r * (1 + r) ≠ 0 := ne_of_gt hfac
    rw [hreq, if_neg hguard, hmax, hfvs, if_neg hrne, mul_assoc, div_mul_cancel₀ _ hfne]
    ring

/-- Witness for `requiredSIP_roundtrip` at a concrete input
(1 month, 12% annual rate, no existing corpus). -/
theorem requiredSIP_roundtrip_w :
    1 ≤ jsRound ((1/12 : ℚ) * 12) ∧
    fvLumpSum jsPowInt ((0:ℚ) + 0) 12 (1/12) 12 ≤ 100 ∧
    (annualPctToMonthlyRate 12 = 0 ∨
      (1 / 1000000000000 ≤ |annualPctToMonthlyRate 12| ∧ -1 < annualPctToMonthlyRate 12)) ∧
    fvSIP (requiredSIP jsPowInt 100 (1/12) 12 0 0 0) 12 (1/12)
      + fvLumpSum jsPowInt ((0:ℚ) + 0) 12 (1/12) 12 = 100 := by
  have hfv : fvLumpSum jsPowInt ((0:ℚ) + 0) 12 (1/12) 12 = 0 := by with_unfolding_all rfl
  have hrv : annualPctToMonthlyRate 12 = 1/100 := by norm_num [annualPctToMonthlyRate]
  have hab : 1 / 1000000000000 ≤ |annualPctToMonthlyRate 12| := by
    rw [hrv, abs_of_pos (show (0:ℚ) < 1/100 by norm_num)]
    norm_num
  refine ⟨by norm_num [jsRound], by rw [hfv]; norm_num, Or.inr ⟨hab, by rw [hrv]; norm_num⟩, ?_⟩
  exact requiredSIP_roundtrip jsPowInt 100 (1/12) 12 0 0 0 (by norm_num [jsRound])
    (by rw [hfv]; norm_num)
    (Or.inr ⟨hab, by rw [hrv]; norm_num⟩)

/-- C4 (counterexample): a tiny but nonzero rate inside the solver's zero-guard
band (`0 < |r| < 1e-12`) breaks the round-trip identity even in exact
arithmetic: `requiredSIP` takes the linear branch while `fvSIP` compounds,
so the reproduced amount differs from the target (by a factor `1 + r`). -/
theorem requiredSIP_roundtrip_cex :
    annualPctToMonthlyRate (1/1000000000) ≠ 0 ∧
    |annualPctToMonthlyRate (1/1000000000)| < 1 / 1000000000000 ∧
    fvSIP (requiredSIP jsPowInt 1 (1/12) (1/1000000000) 0 0 0) (1/1000000000) (1/12)
      + fvLumpSum jsPowInt ((0:ℚ) + 0) (1/1000000000) (1/12) 12 ≠ 1 := by
  have hrv : annualPctToMonthlyRate (1/1000000000) = 1/1200000000000 := by
    norm_num [annualPctToMonthlyRate]
  have hv : fvSIP (requiredSIP jsPowInt 1 (1/12) (1/1000000000) 0 0 0) (1/1000000000) (1/12)
      + fvLumpSum jsPowInt ((0:ℚ) + 0) (1/1000000000) (1/12) 12
      = 1200000000001/1200000000000 := by
    with_unfolding_all rfl
  refine ⟨?_, ?_, ?_⟩
  · rw [hrv]
    norm_num
  · rw [hrv, abs_of_pos (show (0:ℚ) < 1/1200000000000 by norm_num)]
    norm_num
  · rw [hv]
    norm_num

/-- C8 (amended): for every goal input whose rounded period count is at least
1 and whose monthly rate is either exactly zero or outside the `1e-12`
zero-guard band and above -100% per month, `requiredSIP` is non-negative,
and it is exactly zero whenever the future value of the existing corpus plus
lumpsum already reaches the target. -/
theorem requiredSIP_nonneg_and_zero (powq : ℚ → ℚ → ℚ)
    (targetAmount years apct existingCorpus existingMonthly lumpsum : ℚ)
    (hn : 1 ≤ jsRound (years * 12))
    (hr : annualPctToMonthlyRate apct = 0 ∨
      (1 / 1000000000000 ≤ |annualPctToMonthlyRate apct| ∧ -1 < annualPctToMonthlyRate apct)) :
    0 ≤ requiredSIP powq targetAmount years apct existingCorpus existingMonthly lumpsum ∧
    (targetAmount ≤ fvLumpSum powq (existingCorpus + lumpsum) apct years 12 →
      requiredSIP powq targetAmount years apct existingCorpus existingMonthly lumpsum = 0) := by
  set r := annualPctToMonthlyRate apct with hrdef
  set n := jsRound (years * 12) with hndef
  set fv := fvLumpSum powq (existingCorpus + lumpsum) apct years 12 with hfvdef
  have hreq : requiredSIP powq targetAmount years apct existingCorpus existingMonthly lumpsum
      = if |r| < 1 / 1000000000000 then max 0 (targetAmount - fv) / (n : ℚ)
        else max 0 (targetAmount - fv) / (((1 + r) ^ n - 1) / r * (1 + r)) := rfl
  have hnQ : (1:ℚ) ≤ (n : ℚ) := by exact_mod_cast hn
  have hmaxnn : 0 ≤ max 0 (targetAmount - fv) := le_max_left 0 _
  constructor
  · rcases hr with h0 | ⟨hmag, hgt⟩
    · have hguard : |r| < 1 / 1000000000000 := by rw [h0]; norm_num
      rw [hreq, if_pos hguard]
      exact div_nonneg hmaxnn (by linarith)
    · have hrne : r ≠ 0 := by
        intro h
        rw [h] at hmag
        norm_num at hmag
      have hguard : ¬ |r| < 1 / 1000000000000 := not_lt.2 hmag
      have hn0 : (0:ℤ) ≤ n := by linarith
      have hzn : (1 + r) ^ n = (1 + r) ^ n.toNat := by
        conv_lhs => rw [← Int.toNat_of_nonneg hn0]
        exact zpow_natCast _ _
      have hfac : 0 < ((1 + r) ^ n - 1) / r * (1 + r) := by
        rw [hzn]
        exact annuity_factor_pos r n.toNat hgt hrne (by omega)
      rw [hreq, if_neg hguard]
      exact div_nonneg hmaxnn (le_of_lt hfac)
  · intro hle
    have hmax0 : max 0 (targetAmount - fv) = 0 := max_eq_left (by linarith)
    rw [hreq, hmax0]
    split_ifs
    · rw [zero_div]
    · rw [zero_div]

/-- Witness for `requiredSIP_nonneg_and_zero` at a concrete input. -/
theorem requiredSIP_nonneg_and_zero_w :
    1 ≤ jsRound ((1/12 : ℚ) * 12) ∧
    (annualPctToMonthlyRate 12 = 0 ∨
      (1 / 1000000000000 ≤ |annualPctToMonthlyRate 12| ∧ -1 < annualPctToMonthlyRate 12)) ∧
    (0 ≤ requiredSIP jsPowInt 100 (1/12) 12 0 0 0 ∧
      (100 ≤ fvLumpSum jsPowInt ((0:ℚ) + 0) 12 (1/12) 12 →
        requiredSIP jsPowInt 100 (1/12) 12 0 0 0 = 0)) := by
  have hrv : annualPctToMonthlyRate 12 = 1/100 := by norm_num [annualPctToMonthlyRate]
  have hab : 1 / 1000000000000 ≤ |annualPctToMonthlyRate 12| := by
    rw [hrv, abs_of_pos (show (0:ℚ) < 1/100 by norm_num)]
    norm_num
  refine ⟨by norm_num [jsRound], Or.inr ⟨hab, by rw [hrv]; norm_num⟩, ?_⟩
  exact requiredSIP_nonneg_and_zero jsPowInt 100 (1/12) 12 0 0 0 (by norm_num [jsRound])
    (Or.inr ⟨hab, by rw [hrv]; norm_num⟩)

/-- C8 (counterexample): at an annual rate of -2400% the monthly rate is -2:
the rounded period count is 1 and the rate lies far outside the `1e-12`
near-zero singular band, so the claim's hypotheses hold, yet the annuity
factor `((1+r)^1 - 1)/r * (1+r)` is -1 and `requiredSIP` returns the
strictly negative contribution -100 for target 100 — also refuting the
spec's unconditional "required contribution is never negative".  The
conjunct `¬(-1 < r)` pinpoints the hypothesis of the amended theorem that
this input violates. -/
theorem requiredSIP_negative_cex :
    1 ≤ jsRound ((1/12 : ℚ) * 12) ∧
    annualPctToMonthlyRate (-2400) = -2 ∧
    1 / 1000000000000 ≤ |annualPctToMonthlyRate (-2400)| ∧
    ¬ (-1 < annualPctToMonthlyRate (-2400)) ∧
    requiredSIP jsPowInt 100 (1/12) (-2400) 0 0 0 = -100 ∧
    requiredSIP jsPowInt 100 (1/12) (-2400) 0 0 0 < 0 := by
  have hrv : annualPctToMonthlyRate (-2400) = -2 := by norm_num [annualPctToMonthlyRate]
  have hab : |annualPctToMonthlyRate (-2400)| = 2 := by
    rw [hrv, abs_of_neg (show (-2:ℚ) < 0 by norm_num)]
    norm_num
  have hval : requiredSIP jsPowInt 100 (1/12) (-2400) 0 0 0 = -100 := by
    with_unfolding_all rfl
  refine ⟨by norm_num [jsRound], hrv, by rw [hab]; norm_num, by rw [hrv]; norm_num, hval, ?_⟩
  rw [hval]
  norm_num

theorem sipAux_snoc (mi r : ℚ) :
    ∀ (rem m : ℕ) (b : ℚ),
    sipAux mi r m (rem + 1) b
      = ((sipAux mi r m rem b).1 ++
          (if (m + rem) % 12 = 0 then
            [⟨((m + rem : ℕ) : ℚ) / 12, mi * ((m + rem : ℕ) : ℚ),
              ((sipAux mi r m rem b).2 + mi) * (1 + r)⟩]
          else []),
        ((sipAux mi r m rem b).2 + mi) * (1 + r)) := by
  intro rem
  induction rem with
  | zero =>
    intro m b
    simp [sipAux]
  | succ k ih =>
    intro m b
    have h1 : sipAux mi r m (k + 2) b
        = ((if m % 12 = 0 then [⟨(m : ℚ) / 12, mi * (m : ℚ), (b + mi) * (1 + r)⟩] else [])
            ++ (sipAux mi r (m + 1) (k + 1) ((b + mi) * (1 + r))).1,
          (sipAux mi r (m + 1) (k + 1) ((b + mi) * (1 + r))).2) := rfl
    have h2 : sipAux mi r m (k + 1) b
        = ((if m % 12 = 0 then [⟨(m : ℚ) / 12, mi * (m : ℚ), (b + mi) * (1 + r)⟩] else [])
            ++ (sipAux mi r (m + 1) k ((b + mi) * (1 + r))).1,
          (sipAux mi r (m + 1) k ((b + mi) * (1 + r))).2) := rfl
    have hmk : m + 1 + k = m + (k + 1) := by omega
    rw [h1, ih, h2]
    dsimp only
    rw [hmk, List.append_assoc]

theorem sipAux_snd_succ (mi r : ℚ) (rem m : ℕ) (b : ℚ) :
    (sipAux mi r m (rem + 1) b).2 = ((sipAux mi r m rem b).2 + mi) * (1 + r) := by
  rw [sipAux_snoc]

theorem sipAux_last_multiple (mi r : ℚ) (k m : ℕ) (b : ℚ) (h : (m + k) % 12 = 0) :
    (sipAux mi r m (k + 1) b).1.getLast?
      = some ⟨((m + k : ℕ) : ℚ) / 12, mi * ((m + k : ℕ) : ℚ),
          (sipAux mi r m (k + 1) b).2⟩ := by
  rw [sipAux_snoc]
  dsimp only
  rw [if_pos h, List.getLast?_concat]

theorem sipAux_snd_closed (mi r : ℚ) (m : ℕ) (b : ℚ) (h0 : r ≠ 0) :
    ∀ rem : ℕ, (sipAux mi r m rem b).2
      = b * (1 + r) ^ rem + mi * (1 + r) * ((1 + r) ^ rem - 1) / r := by
  intro rem
  induction rem with
  | zero => simp [sipAux]
  | succ k ih =>
    rw [sipAux_snd_succ, ih]
    field_simp
    ring

theorem sipAux_snd_zero_rate (mi : ℚ) (m : ℕ) (b : ℚ) :
    ∀ rem : ℕ, (sipAux mi 0 m rem b).2 = b + mi * rem := by
  intro rem
  induction rem with
  | zero => simp [sipAux]
  | succ k ih =>
    rw [sipAux_snd_succ, ih]
    push_cast
    ring

/-- C10: for every contribution, rate and duration whose rounded period count
`n = round(years*12)` is at least 1, the value of the last row of
`sipSchedule` equals `fvSIP` on the same inputs: the iterative
`balance = (balance + contribution) * (1 + r)` accumulation agrees with the
closed-form annuity-due formula (and with `contribution * n` at zero rate). -/
theorem sipSchedule_last_value_eq_fvSIP (mi apct years : ℚ)
    (hn : 1 ≤ jsRound (years * 12)) :
    ((sipSchedule mi apct years).getLast?).map SRow.value = some (fvSIP mi apct years) := by
  set r := annualPctToMonthlyRate apct with hrdef
  set n := jsRound (years * 12) with hndef
  have hn0 : (0:ℤ) ≤ n := by linarith
  have hnat : (n.toNat : ℤ) = n := Int.toNat_of_nonneg hn0
  have hsch : sipSchedule mi apct years
      = if n % 12 ≠ 0 then
          (sipAux mi r 1 n.toNat 0).1
            ++ [⟨years, mi * (n : ℚ), (sipAux mi r 1 n.toNat 0).2⟩]
        else (sipAux mi r 1 n.toNat 0).1 := rfl
  have hfvs : fvSIP mi apct years
      = if r = 0 then mi * (n : ℚ) else mi * (((1 + r) ^ n - 1) / r) * (1 + r) := rfl
  have hc : ((n.toNat : ℚ)) = (n : ℚ) := by exact_mod_cast hnat
  have hbal : (sipAux mi r 1 n.toNat 0).2 = fvSIP mi apct years := by
    rw [hfvs]
    by_cases h0 : r = 0
    · rw [if_pos h0, h0, sipAux_snd_zero_rate, hc]
      ring
    · have hzn : (1 + r) ^ n = (1 + r) ^ n.toNat := by
        conv_lhs => rw [← hnat]
        exact zpow_natCast _ _
      rw [if_neg h0, sipAux_snd_closed mi r 1 0 h0 n.toNat, hzn]
      field_simp
      ring
  by_cases h12 : n % 12 = 0
  · have hk : n.toNat = (n.toNat - 1) + 1 := by omega
    have hmk : (1 + (n.toNat - 1)) % 12 = 0 := by omega
    have hlast := sipAux_last_multiple mi r (n.toNat - 1) 1 0 hmk
    rw [hsch, if_neg (fun hc2 => hc2 h12), hk, hlast, ← hk]
    simp only [Option.map_some']
    exact congrArg some hbal
  · rw [hsch, if_pos h12, List.getLast?_concat]
    simp only [Option.map_some']
    exact congrArg some hbal

/-- Witness for `sipSchedule_last_value_eq_fvSIP` at a concrete input. -/
theorem sipSchedule_last_value_eq_fvSIP_w :
    1 ≤ jsRound ((1:ℚ) * 12) ∧
    ((sipSchedule 1 12 1).getLast?).map SRow.value = some (fvSIP 1 12 1) :=
  ⟨by norm_num [jsRound], sipSchedule_last_value_eq_fvSIP 1 12 1 (by norm_num [jsRound])⟩

theorem monthList_succ_head (m rem : ℕ) :
    monthList m (rem + 1) = (if m % 12 = 0 then [m] else []) ++ monthList (m + 1) rem := by
  unfold monthList
  rw [List.range_succ_eq_map, List.map_cons, List.map_map, List.filter_cons]
  have hc : ((fun i => m + i) ∘ Nat.succ) = fun i => m + 1 + i := by
    funext i
    simp only [Function.comp_apply]
    omega
  rw [hc]
  by_cases h : m % 12 = 0 <;> simp [h]

theorem monthList_succ_concat (m rem : ℕ) :
    monthList m (rem + 1)
      = monthList m rem ++ (if (m + rem) % 12 = 0 then [m + rem] else []) := by
  unfold monthList
  rw [List.range_succ, List.map_append, List.filter_append]
  congr 1
  by_cases h : (m + rem) % 12 = 0 <;> simp [h]

theorem monthList_pairwise (m rem : ℕ) : (monthList m rem).Pairwise (· < ·) := by
  unfold monthList
  refine List.Pairwise.filter _ (List.Pairwise.map _ ?_ (List.pairwise_lt_range rem))
  intro a b hab
  omega

theorem monthList_mem (m rem k : ℕ) (h : k ∈ monthList m rem) :
    m ≤ k ∧ k < m + rem ∧ k % 12 = 0 := by
  unfold monthList at h
  rw [List.mem_filter] at h
  obtain ⟨h1, h2⟩ := h
  rw [List.mem_map] at h1
  obtain ⟨i, hi, rfl⟩ := h1
  rw [List.mem_range] at hi
  refine ⟨Nat.le_add_right m i, by omega, by simpa using h2⟩

theorem sipAux_years (mi r : ℚ) :
    ∀ (rem m : ℕ) (b : ℚ),
    (sipAux mi r m rem b).1.map SRow.year
      = (monthList m rem).map (fun k : ℕ => (k : ℚ) / 12) := by
  intro rem
  induction rem with
  | zero => intro m b; rfl
  | succ k ih =>
    intro m b
    have h1 : sipAux mi r m (k + 1) b
        = ((if m % 12 = 0 then [⟨(m : ℚ) / 12, mi * (m : ℚ), (b + mi) * (1 + r)⟩] else [])
            ++ (sipAux mi r (m + 1) k ((b + mi) * (1 + r))).1,
          (sipAux mi r (m + 1) k ((b + mi) * (1 + r))).2) := rfl
    rw [h1]
    dsimp only
    rw [List.map_append, ih, monthList_succ_head, List.map_append]
    congr 1
    by_cases h : m % 12 = 0 <;> simp [h]

/-- C2 (amended): for every contribution, principal, rate and positive
duration: both schedules have strictly increasing year indices, and
`lumpsumSchedule`'s final row's year always equals the requested duration;
`sipSchedule`'s final row's year equals the requested duration whenever
`n = round(years*12)` is not a multiple of 12, but when `n` is a positive
multiple of 12 the final row's year is `n / 12` (equal to the duration only
if `years = n / 12`), and when `n = 0` the schedule is empty. -/
theorem schedule_year_rows (powq : ℚ → ℚ → ℚ) (mi principal apct years : ℚ)
    (hy : 0 < years) :
    ((sipSchedule mi apct years).map SRow.year).Pairwise (· < ·) ∧
    ((lumpsumSchedule powq principal apct years).map SRow.year).Pairwise (· < ·) ∧
    ((lumpsumSchedule powq principal apct years).map SRow.year).getLast? = some years ∧
    (jsRound (years * 12) % 12 ≠ 0 →
      ((sipSchedule mi apct years).map SRow.year).getLast? = some years) ∧
    (jsRound (years * 12) = 0 → sipSchedule mi apct years = []) ∧
    (∀ k : ℤ, jsRound (years * 12) = 12 * k → 1 ≤ k →
      ((sipSchedule mi apct years).map SRow.year).getLast? = some ((k : ℚ))) := by
  set r := annualPctToMonthlyRate apct with hrdef
  set n := jsRound (years * 12) with hndef
  have hq1 : (n : ℚ) ≤ years * 12 + 1/2 := by
    rw [hndef]
    unfold jsRound
    exact Int.floor_le _
  have hq2 : years * 12 + 1/2 < (n : ℚ) + 1 := by
    rw [hndef]
    unfold jsRound
    exact Int.lt_floor_add_one _
  have hn0 : (0:ℤ) ≤ n := by
    have hq : (-1 : ℚ) < (n : ℚ) := by linarith
    have : (-1 : ℤ) < n := by exact_mod_cast hq
    omega
  have hnat : (n.toNat : ℤ) = n := Int.toNat_of_nonneg hn0
  have hcn : ((n.toNat : ℚ)) = (n : ℚ) := by exact_mod_cast hnat
  have hsch : sipSchedule mi apct years
      = if n % 12 ≠ 0 then
          (sipAux mi r 1 n.toNat 0).1
            ++ [⟨years, mi * (n : ℚ), (sipAux mi r 1 n.toNat 0).2⟩]
        else (sipAux mi r 1 n.toNat 0).1 := rfl
  have hyrs : (sipAux mi r 1 n.toNat 0).1.map SRow.year
      = (monthList 1 n.toNat).map (fun k : ℕ => (k : ℚ) / 12) := sipAux_years mi r n.toNat 1 0
  have hpairMonths : ((monthList 1 n.toNat).map (fun k : ℕ => (k : ℚ) / 12)).Pairwise (· < ·) := by
    refine List.Pairwise.map _ ?_ (monthList_pairwise 1 n.toNat)
    intro a b hab
    have hq : (a : ℚ) < (b : ℚ) := by exact_mod_cast hab
    linarith
  -- the lumpsum schedule
  set g := annualPctToRate apct with hgdef
  set cnt := ⌊years⌋.toNat with hcntdef
  set rowsL : List SRow := (List.range cnt).map
    (fun i => ⟨((i + 1 : ℕ) : ℚ), principal, principal * (1 + g) ^ (i + 1)⟩) with hrowsL
  have hLdef : lumpsumSchedule powq principal apct years
      = if ∃ x ∈ rowsL, x.year = years then rowsL
        else rowsL ++ [⟨years, principal, principal * powq (1 + g) years⟩] := rfl
  have hfl0 : (0:ℤ) ≤ ⌊years⌋ := by
    rw [Int.le_floor]
    push_cast
    linarith
  have hflc : ((cnt : ℤ)) = ⌊years⌋ := Int.toNat_of_nonneg hfl0
  have hflQ : ((cnt : ℚ)) ≤ years := by
    have h1 : ((⌊years⌋ : ℤ) : ℚ) ≤ years := Int.floor_le years
    have h2 : ((cnt : ℚ)) = ((⌊years⌋ : ℤ) : ℚ) := by exact_mod_cast hflc
    linarith
  have hyrsL : rowsL.map SRow.year = (List.range cnt).map (fun i : ℕ => ((i + 1 : ℕ) : ℚ)) := by
    rw [hrowsL, List.map_map]
    rfl
  have hpairL : ((List.range cnt).map (fun i : ℕ => ((i + 1 : ℕ) : ℚ))).Pairwise (· < ·) := by
    refine List.Pairwise.map _ ?_ (List.pairwise_lt_range cnt)
    intro a b hab
    have hq : (a : ℚ) < (b : ℚ) := by exact_mod_cast hab
    push_cast
    linarith
  have hlump : ((lumpsumSchedule powq principal apct years).map SRow.year).Pairwise (· < ·) ∧
      ((lumpsumSchedule powq principal apct years).map SRow.year).getLast? = some years := by
    by_cases hex : ∃ x ∈ rowsL, x.year = years
    · obtain ⟨x, hxm, hxy⟩ := hex
      rw [hrowsL, List.mem_map] at hxm
      obtain ⟨i, hir, rfl⟩ := hxm
      rw [List.mem_range] at hir
      have hyi : years = ((i + 1 : ℕ) : ℚ) := hxy.symm
      have hfli : ⌊years⌋ = ((i + 1 : ℕ) : ℤ) := by
        rw [hyi]
        exact_mod_cast Int.floor_natCast (i + 1)
      have hcnti : cnt = i + 1 := by omega
      constructor
      · rw [hLdef, if_pos ⟨_, by rw [hrowsL]; exact List.mem_map_of_mem _ (by
          rw [List.mem_range]; exact hir), hxy⟩, hyrsL]
        exact hpairL
      · rw [hLdef, if_pos ⟨_, by rw [hrowsL]; exact List.mem_map_of_mem _ (by
          rw [List.mem_range]; exact hir), hxy⟩, hyrsL, hcnti, List.range_succ,
          List.map_append]
        simp only [List.map_cons, List.map_nil]
        rw [List.getLast?_concat, hyi]
    · push_neg at hex
      have hmap : (lumpsumSchedule powq principal apct years).map SRow.year
          = (List.range cnt).map (fun i : ℕ => ((i + 1 : ℕ) : ℚ)) ++ [years] := by
        rw [hLdef, if_neg (by push_neg; exact hex), List.map_append, hyrsL]
        rfl
      constructor
      · rw [hmap, List.pairwise_append]
        refine ⟨hpairL, List.pairwise_singleton _ _, ?_⟩
        intro a ha b hb
        rw [List.mem_singleton] at hb
        rw [hb]
        rw [List.mem_map] at ha
        obtain ⟨i, hir, rfl⟩ := ha
        rw [List.mem_range] at hir
        have hle : ((i + 1 : ℕ) : ℚ) ≤ (cnt : ℚ) := by exact_mod_cast Nat.succ_le_of_lt hir
        have hne : ((i + 1 : ℕ) : ℚ) ≠ years := by
          have hmem : (⟨((i + 1 : ℕ) : ℚ), principal, principal * (1 + g) ^ (i + 1)⟩ : SRow)
              ∈ rowsL := by
            rw [hrowsL]
            exact List.mem_map_of_mem _ (by rw [List.mem_range]; exact hir)
          exact hex _ hmem
        exact lt_of_le_of_ne (le_trans hle hflQ) hne
      · rw [hmap, List.getLast?_concat]
  refine ⟨?_, hlump.1, hlump.2, ?_, ?_, ?_⟩
  · -- sip pairwise
    by_cases h12 : n % 12 = 0
    · rw [hsch, if_neg (fun hcon => hcon h12), hyrs]
      exact hpairMonths
    · have hmapB : (sipSchedule mi apct years).map SRow.year
          = (monthList 1 n.toNat).map (fun kk : ℕ => (kk : ℚ) / 12) ++ [years] := by
        rw [hsch, if_pos h12, List.map_append, hyrs]
        rfl
      rw [hmapB, List.pairwise_append]
      refine ⟨hpairMonths, List.pairwise_singleton _ _, ?_⟩
      intro a ha b hb
      rw [List.mem_singleton] at hb
      rw [hb]
      rw [List.mem_map] at ha
      obtain ⟨kk, hkk, rfl⟩ := ha
      obtain ⟨hk1, hk2, hk3⟩ := monthList_mem 1 n.toNat kk hkk
      have hkkn : kk + 1 ≤ n.toNat := by omega
      have hkQ : (kk : ℚ) + 1 ≤ (n.toNat : ℚ) := by exact_mod_cast hkkn
      rw [hcn] at hkQ
      have : (kk : ℚ) < years * 12 := by linarith
      linarith
  · -- sip last row equals duration when n % 12 ≠ 0
    intro h12
    have hmapB : (sipSchedule mi apct years).map SRow.year
        = (monthList 1 n.toNat).map (fun kk : ℕ => (kk : ℚ) / 12) ++ [years] := by
      rw [hsch, if_pos h12, List.map_append, hyrs]
      rfl
    rw [hmapB, List.getLast?_concat]
  · -- empty schedule when n = 0
    intro h0
    have hz : n.toNat = 0 := by omega
    rw [hsch, if_neg (fun hcon => hcon (by omega)), hz]
    rfl
  · -- last row year is n / 12 when n a positive multiple of 12
    intro k hk hk1
    have h12 : n % 12 = 0 := by omega
    have hnn1 : 1 ≤ n.toNat := by omega
    have hmod : n.toNat % 12 = 0 := by omega
    have hdec : monthList 1 n.toNat = monthList 1 (n.toNat - 1) ++ [n.toNat] := by
      have h1 : n.toNat = (n.toNat - 1) + 1 := by omega
      conv_lhs => rw [h1]
      rw [monthList_succ_concat, if_pos (by omega)]
      have h2 : 1 + (n.toNat - 1) = n.toNat := by omega
      rw [h2]
    have hq : ((n.toNat : ℚ)) = 12 * (k : ℚ) := by
      have hz : ((n.toNat : ℤ)) = 12 * k := by omega
      exact_mod_cast hz
    rw [hsch, if_neg (fun hcon => hcon h12), hyrs, hdec, List.map_append]
    simp only [List.map_cons, List.map_nil]
    rw [List.getLast?_concat]
    congr 1
    rw [hq]
    ring

/-- C2 (counterexample): at the fractional duration 1.01 years, `sipSchedule`
rounds to n = 12 months; since `12 % 12 = 0` no final fractional-year row is
pushed, and the last row's year is 1, not the requested duration 1.01. -/
theorem sipSchedule_last_year_cex :
    (0:ℚ) < 101/100 ∧
    ((sipSchedule 1 0 (101/100)).map SRow.year).getLast? = some 1 ∧
    (1 : ℚ) ≠ 101/100 := by
  refine ⟨by norm_num, by with_unfolding_all rfl, by norm_num⟩

/-- Witness for `schedule_year_rows` at a concrete input (duration 1.5 years). -/
theorem schedule_year_rows_w :
    (0:ℚ) < 3/2 ∧
    (((sipSchedule 1 0 (3/2)).map SRow.year).Pairwise (· < ·) ∧
     ((lumpsumSchedule jsPowInt 1 0 (3/2)).map SRow.year).Pairwise (· < ·) ∧
     ((lumpsumSchedule jsPowInt 1 0 (3/2)).map SRow.year).getLast? = some (3/2) ∧
     (jsRound ((3/2) * 12) % 12 ≠ 0 →
       ((sipSchedule 1 0 (3/2)).map SRow.year).getLast? = some (3/2)) ∧
     (jsRound ((3/2) * 12) = 0 → sipSchedule 1 0 (3/2) = []) ∧
     (∀ k : ℤ, jsRound ((3/2) * 12) = 12 * k → 1 ≤ k →
       ((sipSchedule 1 0 (3/2)).map SRow.year).getLast? = some ((k : ℚ)))) :=
  ⟨by norm_num, schedule_year_rows jsPowInt 1 1 0 (3/2) (by norm_num)⟩

end DP
